import Mathlib

/-!
Verification of the `ollama-rs` client library (`src/lib.rs`).

The development shallowly embeds the pure content of the three operations of
the `Ollama` struct — `version`, `available_models` and `prompt` — together
with the JSON parsing behaviour of the `serde_json` dependency that they rely
on.  Network I/O is abstracted by a `NetOutcome` value: the outcome of the
connect/write/read sequence each operation performs on its freshly opened
socket.  Everything is computable, so concrete runs of the embedded code can
be evaluated inside proofs.
-/

set_option maxRecDepth 4000

namespace OllamaRs

/-- JSON values as handled by the `serde_json::Value` type used in the source.
Numbers are kept as their source lexeme: the library never inspects numeric
values, only strings, arrays and objects.  Object fields are kept in parse
order; duplicate keys are resolved by `objGet` taking the last binding, which
matches the map-overwrite semantics of `serde_json`. -/
inductive Json where
  | null : Json
  | bool : Bool → Json
  | num : String → Json
  | str : String → Json
  | arr : List Json → Json
  | obj : List (String × Json) → Json

/-- Lookup of a key in an object's field list, last binding wins (the
`serde_json` map overwrites earlier duplicates while parsing). -/
def objGet : List (String × Json) → String → Option Json
  | [], _ => none
  | (k, v) :: rest, key =>
    match objGet rest key with
    | some r => some r
    | none => if k = key then some v else none

/-- `value[key]` indexing on `serde_json::Value`: yields `Null` when the value
is not an object or the key is absent. -/
def jindex (v : Json) (key : String) : Json :=
  match v with
  | .obj kvs => (objGet kvs key).getD .null
  | _ => .null

/-- `Value::get` on `serde_json::Value`: `Option`-returning field access. -/
def jget (v : Json) (key : String) : Option Json :=
  match v with
  | .obj kvs => objGet kvs key
  | _ => none

/-- `Value::as_str`. -/
def jStr : Json → Option String
  | .str s => some s
  | _ => none

/-- `Value::as_array`. -/
def jArr : Json → Option (List Json)
  | .arr xs => some xs
  | _ => none

/-- JSON insignificant whitespace, as skipped by `serde_json`. -/
def isJsonWs (c : Char) : Bool :=
  c = ' ' || c = '\t' || c = '\n' || c = '\r'

/-- Drop leading JSON whitespace. -/
def skipWs : List Char → List Char
  | [] => []
  | c :: cs => if isJsonWs c then skipWs cs else c :: cs

/-- Value of a hexadecimal digit. -/
def hexVal (c : Char) : Option Nat :=
  if '0' ≤ c ∧ c ≤ '9' then some (c.toNat - 48)
  else if 'a' ≤ c ∧ c ≤ 'f' then some (c.toNat - 87)
  else if 'A' ≤ c ∧ c ≤ 'F' then some (c.toNat - 55)
  else none

/-- Body of a JSON string after the opening quote (fuel-bounded; one unit of
fuel per decoded character, so `length + 1` always suffices): returns the
decoded characters and the input remaining after the closing quote.  Mirrors
`serde_json`: the recognised escapes, the rejection of raw control
characters, and the pairing rules for `\u` surrogate escapes. -/
def parseStringBodyF : Nat → List Char → Option (List Char × List Char)
  | 0, _ => none
  | _ + 1, [] => none
  | fuel + 1, c :: cs =>
    if c = '"' then some ([], cs)
    else if c = '\\' then
      match cs with
      | [] => none
      | e :: cs2 =>
        if e = '"' then (parseStringBodyF fuel cs2).map (fun p => ('"' :: p.1, p.2))
        else if e = '\\' then (parseStringBodyF fuel cs2).map (fun p => ('\\' :: p.1, p.2))
        else if e = '/' then (parseStringBodyF fuel cs2).map (fun p => ('/' :: p.1, p.2))
        else if e = 'b' then (parseStringBodyF fuel cs2).map (fun p => ('\x08' :: p.1, p.2))
        else if e = 'f' then (parseStringBodyF fuel cs2).map (fun p => ('\x0c' :: p.1, p.2))
        else if e = 'n' then (parseStringBodyF fuel cs2).map (fun p => ('\n' :: p.1, p.2))
        else if e = 'r' then (parseStringBodyF fuel cs2).map (fun p => ('\r' :: p.1, p.2))
        else if e = 't' then (parseStringBodyF fuel cs2).map (fun p => ('\t' :: p.1, p.2))
        else if e = 'u' then
          match cs2 with
          | h1 :: h2 :: h3 :: h4 :: cs3 =>
            match hexVal h1, hexVal h2, hexVal h3, hexVal h4 with
            | some a, some b, some c2, some d =>
              let n := a * 4096 + b * 256 + c2 * 16 + d
              if n < 0xD800 ∨ 0xDFFF < n then
                (parseStringBodyF fuel cs3).map (fun p => (Char.ofNat n :: p.1, p.2))
              else if n ≤ 0xDBFF then
                match cs3 with
                | '\\' :: 'u' :: g1 :: g2 :: g3 :: g4 :: cs4 =>
                  match hexVal g1, hexVal g2, hexVal g3, hexVal g4 with
                  | some a2, some b2, some c3, some d2 =>
                    let m := a2 * 4096 + b2 * 256 + c3 * 16 + d2
                    if 0xDC00 ≤ m ∧ m ≤ 0xDFFF then
                      (parseStringBodyF fuel cs4).map
                        (fun p => (Char.ofNat (0x10000 + (n - 0xD800) * 0x400 + (m - 0xDC00)) :: p.1, p.2))
                    else none
                  | _, _, _, _ => none
                | _ => none
              else none
            | _, _, _, _ => none
          | _ => none
        else none
    else if c.toNat < 32 then none
    else (parseStringBodyF fuel cs).map (fun p => (c :: p.1, p.2))

/-- `parseStringBodyF` at its always-sufficient fuel. -/
def parseStringBody (cs : List Char) : Option (List Char × List Char) :=
  parseStringBodyF (cs.length + 1) cs

/-- Longest decimal-digit run at the head of the input. -/
def takeDigits : List Char → (List Char × List Char)
  | [] => ([], [])
  | c :: cs =>
    if c.isDigit then
      let p := takeDigits cs
      (c :: p.1, p.2)
    else ([], c :: cs)

/-- Optional fraction part of a JSON number. -/
def parseFrac : List Char → Option (List Char × List Char)
  | '.' :: r =>
    match takeDigits r with
    | ([], _) => none
    | (ds, r2) => some ('.' :: ds, r2)
  | cs => some ([], cs)

/-- Optional exponent part of a JSON number. -/
def parseExp : List Char → Option (List Char × List Char)
  | [] => some ([], [])
  | c :: r =>
    if c = 'e' ∨ c = 'E' then
      let p : List Char × List Char :=
        match r with
        | '+' :: r3 => (['+'], r3)
        | '-' :: r3 => (['-'], r3)
        | _ => ([], r)
      match takeDigits p.2 with
      | ([], _) => none
      | (ds, r3) => some (c :: (p.1 ++ ds), r3)
    else some ([], c :: r)

/-- A JSON number lexeme: `-? (0 | [1-9][0-9]*) frac? exp?`. -/
def parseNumber (cs : List Char) : Option (List Char × List Char) := do
  let sp : List Char × List Char :=
    match cs with
    | '-' :: r => (['-'], r)
    | _ => ([], cs)
  let ip : List Char × List Char ←
    match sp.2 with
    | [] => none
    | c :: r =>
      if c = '0' then some (['0'], r)
      else if c.isDigit then
        let p := takeDigits r
        some (c :: p.1, p.2)
      else none
  let fp ← parseFrac ip.2
  let ep ← parseExp fp.2
  some (sp.1 ++ ip.1 ++ fp.1 ++ ep.1, ep.2)

/-- Parsing mode of the single recursive JSON parser: a value, the element
list of an array, or the member list of an object.  `first` records whether a
closing bracket may come immediately (only before the first element). -/
inductive PMode where
  | val : PMode
  | arrElems : Bool → List Json → PMode
  | objMembers : Bool → List (String × Json) → PMode

/-- Continuation applied to an array element just parsed: a comma continues
the element list, a closing bracket finishes the array. -/
def arrElemCont (recur : PMode → List Char → Option (Json × List Char))
    (acc : List Json) (vr : Json × List Char) : Option (Json × List Char) :=
  match skipWs vr.2 with
  | ',' :: r2 => recur (PMode.arrElems false (acc ++ [vr.1])) r2
  | ']' :: r2 => some (Json.arr (acc ++ [vr.1]), r2)
  | _ => none

/-- Continuation applied to an object member's value just parsed: a comma
continues the member list, a closing brace finishes the object. -/
def objMemberValueCont (recur : PMode → List Char → Option (Json × List Char))
    (acc : List (String × Json)) (k : List Char) (vr : Json × List Char) :
    Option (Json × List Char) :=
  match skipWs vr.2 with
  | ',' :: r5 => recur (PMode.objMembers false (acc ++ [(String.mk k, vr.1)])) r5
  | '\x7d' :: r5 => some (Json.obj (acc ++ [(String.mk k, vr.1)]), r5)
  | _ => none

/-- Continuation applied to an object member's key just parsed: a colon must
follow, then the member's value. -/
def objMemberKeyCont (recur : PMode → List Char → Option (Json × List Char))
    (acc : List (String × Json)) (kr : List Char × List Char) :
    Option (Json × List Char) :=
  match skipWs kr.2 with
  | ':' :: r3 => (recur PMode.val r3).bind (objMemberValueCont recur acc kr.1)
  | _ => none

/-- One step of the JSON grammar, parameterised by the recursive call used
for nested values, array element lists and object member lists. -/
def parseFStep (recur : PMode → List Char → Option (Json × List Char)) :
    PMode → List Char → Option (Json × List Char)
  | PMode.val, cs =>
    match skipWs cs with
    | [] => none
    | c :: rest =>
      if c = '"' then (parseStringBody rest).map (fun p => (Json.str (String.mk p.1), p.2))
      else if c = '\x7b' then recur (PMode.objMembers true []) rest
      else if c = '[' then recur (PMode.arrElems true []) rest
      else if c = 'n' then
        match rest with
        | 'u' :: 'l' :: 'l' :: r => some (Json.null, r)
        | _ => none
      else if c = 't' then
        match rest with
        | 'r' :: 'u' :: 'e' :: r => some (Json.bool true, r)
        | _ => none
      else if c = 'f' then
        match rest with
        | 'a' :: 'l' :: 's' :: 'e' :: r => some (Json.bool false, r)
        | _ => none
      else (parseNumber (c :: rest)).map (fun p => (Json.num (String.mk p.1), p.2))
  | PMode.arrElems first acc, cs =>
    match skipWs cs with
    | ']' :: r2 => if first then some (Json.arr acc, r2) else none
    | ws => (recur PMode.val ws).bind (arrElemCont recur acc)
  | PMode.objMembers first acc, cs =>
    match skipWs cs with
    | '\x7d' :: r2 => if first then some (Json.obj acc, r2) else none
    | '"' :: r => (parseStringBody r).bind (objMemberKeyCont recur acc)
    | _ => none

/-- Fuel-bounded JSON parser.  The fuel only bounds the recursion through
nested values and element lists; one unit is consumed per grammar step, so
`2 * length + 2` fuel is always sufficient (each pair of steps consumes at
least one input character).  Structural recursion on the fuel keeps every
run kernel-computable. -/
def parseF : Nat → PMode → List Char → Option (Json × List Char)
  | 0, _, _ => none
  | fuel + 1, mode, cs => parseFStep (parseF fuel) mode cs

/-- `serde_json::from_str::<Value>`: parse one complete JSON value and require
that only whitespace remains. -/
def Json.parse (s : String) : Option Json :=
  match parseF (2 * s.data.length + 2) PMode.val s.data with
  | some (v, rest) => if skipWs rest = [] then some v else none
  | none => none

/-- Does `pat` occur at the head of the input? (`str::starts_with` on the
pattern, used to express `str::find`). -/
def leadsWith : List Char → List Char → Bool
  | [], _ => true
  | _ :: _, [] => false
  | p :: ps, c :: cs => p == c && leadsWith ps cs

/-- `str::find(pat)`: index of the first occurrence of `pat`. -/
def findSub (pat : List Char) : List Char → Option Nat
  | [] => if leadsWith pat [] then some 0 else none
  | c :: cs =>
    if leadsWith pat (c :: cs) then some 0
    else (findSub pat cs).map (fun i => i + 1)

/-- The `CRLFCRLF` header/body boundary marker. -/
def crlfcrlf : List Char := ['\r', '\n', '\r', '\n']

/-- `response.find("\r\n\r\n")` followed by `&response[start + 4..]`: the body
of an HTTP response, when a header/body boundary exists. -/
def splitBody (response : String) : Option String :=
  (findSub crlfcrlf response.data).map (fun i => String.mk (response.data.drop (i + 4)))

/-- The Unicode `White_Space` property, as used by `str::trim`. -/
def isRustWhitespace (c : Char) : Bool :=
  let n := c.toNat
  (0x9 ≤ n && n ≤ 0xD) || n = 0x20 || n = 0x85 || n = 0xA0 || n = 0x1680 ||
  (0x2000 ≤ n && n ≤ 0x200A) || n = 0x2028 || n = 0x2029 || n = 0x202F ||
  n = 0x205F || n = 0x3000

/-- `str::trim`. -/
def rustTrim (s : String) : String :=
  String.mk (((s.data.dropWhile isRustWhitespace).reverse.dropWhile isRustWhitespace).reverse)

/-- `str::split_inclusive('\n')` (no trailing empty piece). -/
def splitInclNl : List Char → List (List Char)
  | [] => []
  | c :: cs =>
    if c = '\n' then [c] :: splitInclNl cs
    else
      match splitInclNl cs with
      | [] => [[c]]
      | l :: ls => (c :: l) :: ls

/-- Strip one trailing `'\n'`, then one trailing `'\r'`, from a piece produced
by `splitInclNl` — the per-line cleanup done by `str::lines`. -/
def stripLineEnd (l : List Char) : List Char :=
  match l.getLast? with
  | some '\n' =>
    let l2 := l.dropLast
    (match l2.getLast? with
     | some '\r' => l2.dropLast
     | _ => l2)
  | _ => l

/-- `str::lines()`: split at `'\n'`, dropping the line terminator and an
adjacent `'\r'`; a final line ending produces no extra empty line. -/
def rustLines (s : String) : List String :=
  (splitInclNl s.data).map (fun l => String.mk (stripLineEnd l))

/-- `str::contains(needle)`. -/
def containsSub (needle hay : String) : Bool :=
  (findSub needle.data hay.data).isSome

/-- Outcome of the connect/write/read sequence an operation performs on its
socket: the three I/O failure modes, or the full response text read until the
peer closed the connection. -/
inductive NetOutcome where
  | connectFail : NetOutcome
  | writeFail : NetOutcome
  | readFail : NetOutcome
  | gotResponse : String → NetOutcome

/-- The error values produced by `available_models` and `prompt` (all built as
`std::io::Error` with `ErrorKind::Other` in the source, distinguished by their
message), together with the propagated transport errors.  `noModelSelected` is
modelled from the spec's error taxonomy (section 7): the spec names a
`NoModelSelected` failure for `prompt`, but no site in `src/lib.rs` constructs
such an error; the constructor exists so that its absence from the code's
behaviour can be stated. -/
inductive ClientError where
  | connectError : ClientError
  | writeError : ClientError
  | readError : ClientError
  | missingBody : ClientError
  | jsonParse : ClientError
  | invalidModels : ClientError
  | noResponseField : String → ClientError
  | noModelSelected : ClientError
deriving DecidableEq

namespace Ollama

/-- The structured path of `Ollama::version` (src/lib.rs lines 41-48): locate
the header/body boundary, trim the body, parse it as JSON and extract a string
`version` field.  `none` exactly when that cascade falls through to the
line-scanning fallback. -/
def structuredVersion (response : String) : Option String :=
  match findSub crlfcrlf response.data with
  | some start =>
    (match Json.parse (rustTrim (String.mk (response.data.drop (start + 4)))) with
     | some parsed => jStr (jindex parsed "version")
     | none => none)
  | none => none

/-- `Ollama::version` applied to a successfully read response (src/lib.rs
lines 41-54): the structured parse, falling back to returning the first
response line containing the substring `"version"` verbatim, then to the
`"invalid response"` sentinel. -/
def versionFromResponse (response : String) : String :=
  match structuredVersion response with
  | some v => v
  | none =>
    (((rustLines response).find? (fun l => containsSub "version" l)).getD "invalid response")

/-- `Ollama::version` (src/lib.rs lines 26-58).  The function is total: every
outcome yields a string, never a failure. -/
def version : NetOutcome → String
  | .connectFail => "not connected"
  | .writeFail => "write error"
  | .readFail => "read error"
  | .gotResponse response => versionFromResponse response

/-- The tail of `Ollama::available_models` after the body has been extracted
(src/lib.rs lines 76-92): parse the body as JSON, require a `models` array,
and collect the string `name` field of each element (`filter_map` over
`m.get("name").and_then(|n| n.as_str())`), silently skipping elements without
one. -/
def modelsFromBody (json_body : String) : Except ClientError (List String) :=
  match Json.parse json_body with
  | none => .error .jsonParse
  | some parsed =>
    (match jArr (jindex parsed "models") with
     | none => .error .invalidModels
     | some arr => .ok (arr.filterMap (fun m => (jget m "name").bind jStr)))

/-- `Ollama::available_models` (src/lib.rs lines 60-93): split at the
header/body boundary, then process the body. -/
def available_models (net : NetOutcome) : Except ClientError (List String) :=
  match net with
  | .connectFail => .error .connectError
  | .writeFail => .error .writeError
  | .readFail => .error .readError
  | .gotResponse response =>
    match findSub crlfcrlf response.data with
    | none => .error .missingBody
    | some start => modelsFromBody (String.mk (response.data.drop (start + 4)))

/-- The generation request body built by `Ollama::prompt` (src/lib.rs lines
103-110): the raw-string `format!` template with its literal newlines and
indentation, interpolating `model` and `prompt` without any escaping. -/
def promptBody (model prompt : String) : String :=
  "\x7b\n            \"model\": \"" ++ model ++ "\",\n            \"prompt\": \"" ++
    prompt ++ "\",\n            \"stream\": false\n        \x7d"

/-- The full POST request built by `Ollama::prompt` (src/lib.rs lines
112-121): `Content-Length` is `body.len()`, the UTF-8 byte length of the
body, and the body follows the `CRLFCRLF` header terminator. -/
def promptRequest (model prompt : String) : String :=
  "POST /api/generate HTTP/1.1\r\nHost: localhost\r\nContent-Type: application/json\r\nContent-Length: " ++
    toString (promptBody model prompt).utf8ByteSize ++
    "\r\nConnection: close\r\n\r\n" ++ promptBody model prompt

/-- The per-line pass of `Ollama::prompt` (src/lib.rs lines 136-143): the
concatenation, over the lines of the body, of the string `response` field of
every line that parses as JSON. -/
def promptLineText (json_body : String) : String :=
  (rustLines json_body).foldl
    (fun acc line =>
      match Json.parse line with
      | some value =>
        (match jStr (jindex value "response") with
         | some chunk => acc ++ chunk
         | none => acc)
      | none => acc) ""

/-- The whole-body fallback parse of `Ollama::prompt` (src/lib.rs lines
146-150): the string `response` field of the body parsed as one JSON value. -/
def promptWholeText (json_body : String) : Option String :=
  match Json.parse json_body with
  | some parsed => jStr (jindex parsed "response")
  | none => none

/-- The final `full_text` value of `Ollama::prompt` (src/lib.rs lines
136-151): the per-line concatenation if non-empty, otherwise whatever the
whole-body parse yields (the empty string when it yields nothing). -/
def promptFullText (json_body : String) : String :=
  let t := promptLineText json_body
  if t = "" then (promptWholeText json_body).getD "" else t

/-- The tail of `Ollama::prompt` after the body has been extracted
(src/lib.rs lines 136-161): empty accumulated text is an error carrying the
raw body, anything else is success. -/
def promptFromBody (json_body : String) : Except ClientError String :=
  if promptFullText json_body = "" then .error (.noResponseField json_body)
  else .ok (promptFullText json_body)

/-- `Ollama::prompt` (src/lib.rs lines 100-161).  The `model` and `prompt`
arguments shape only the request (`promptBody`/`promptRequest`); the result
is computed from the response alone, with no validation of either argument. -/
def prompt (model promptText : String) (net : NetOutcome) : Except ClientError String :=
  match net with
  | .connectFail => .error .connectError
  | .writeFail => .error .writeError
  | .readFail => .error .readError
  | .gotResponse response =>
    match findSub crlfcrlf response.data with
    | none => .error .missingBody
    | some start => promptFromBody (String.mk (response.data.drop (start + 4)))

end Ollama

/-- The spec's `ProtocolError` classification of the error values produced by
`available_models`: HTTP framing or JSON structure violated expectations
(missing boundary, unparsable body, or no `models` array), as opposed to
transport failures or the success case. -/
def isProtocolError {α : Type} : Except ClientError α → Bool
  | .error .missingBody => true
  | .error .jsonParse => true
  | .error .invalidModels => true
  | _ => false

/-- A character that is interpolated into a JSON string literal unchanged:
not a quote, not a backslash, not a control character. -/
def plainJsonChar (c : Char) : Prop :=
  c ≠ '"' ∧ c ≠ '\\' ∧ 32 ≤ c.toNat

instance (c : Char) : Decidable (plainJsonChar c) := by
  unfold plainJsonChar; infer_instance

/-- The header-name marker used to read back the `Content-Length` header from
a raw request: `CRLF` followed by the header name and separator. -/
def clPat : List Char :=
  ['\r', '\n', 'C', 'o', 'n', 't', 'e', 'n', 't', '-', 'L', 'e', 'n', 'g', 't', 'h', ':', ' ']

/-- The value of the `Content-Length` header of a raw HTTP request: the text
between the first occurrence of `clPat` and the following `CR`. -/
def contentLengthHeader (req : String) : Option String :=
  (findSub clPat req.data).map
    (fun i => String.mk ((req.data.drop (i + 18)).takeWhile (fun c => c != '\r')))

/-- An occurrence of `pat` starting at the head of `s` is impossible, no
matter what input follows `s`. -/
def blockedAt (pat s : List Char) : Bool :=
  ! leadsWith (pat.take s.length) s

/-- `pat` cannot occur starting at any position of `a`, no matter what input
follows `a`. -/
def safePre (pat : List Char) : List Char → Bool
  | [] => true
  | c :: cs => blockedAt pat (c :: cs) && safePre pat cs

/-- Twelve spaces: the member indentation of the raw-string `format!` template
of `Ollama::prompt`. -/
def sp12 : List Char := [' ', ' ', ' ', ' ', ' ', ' ', ' ', ' ', ' ', ' ', ' ', ' ']

/-- The text of the request-body template from the line break after the
opening brace up to the opening quote of the `model` value. -/
def memberModelHead : List Char :=
  '\n' :: sp12 ++ ['"', 'm', 'o', 'd', 'e', 'l', '"', ':', ' ', '"']

/-- The template text from the line break after the `model` member up to the
opening quote of the `prompt` value. -/
def memberPromptHead : List Char :=
  '\n' :: sp12 ++ ['"', 'p', 'r', 'o', 'm', 'p', 't', '"', ':', ' ', '"']

/-- The template text from the line break after the `prompt` member to the
closing brace: the `stream` member and the final indentation. -/
def streamTail : List Char :=
  '\n' :: sp12 ++ ['"', 's', 't', 'r', 'e', 'a', 'm', '"', ':', ' ',
    'f', 'a', 'l', 's', 'e', '\n', ' ', ' ', ' ', ' ', ' ', ' ', ' ', ' ', '\x7d']

/-- The request line and first two headers of the POST request, up to (not
including) the `CRLF` that precedes the `Content-Length` header. -/
def preChars : List Char :=
  "POST /api/generate HTTP/1.1\r\nHost: localhost\r\nContent-Type: application/json".data

/-- The `Connection` header of the POST request, up to (not including) the
final `CRLFCRLF` terminator. -/
def postPreChars : List Char := "\r\nConnection: close".data

/-! ## Helper lemmas -/

theorem splitBody_eq_some {resp body : String} (h : splitBody resp = some body) :
    ∃ i, findSub crlfcrlf resp.data = some i ∧ body = String.mk (resp.data.drop (i + 4)) := by
  unfold splitBody at h
  cases hf : findSub crlfcrlf resp.data with
  | none => rw [hf] at h; simp at h
  | some i =>
    rw [hf] at h
    simp only [Option.map_some', Option.some.injEq] at h
    exact ⟨i, rfl, h.symm⟩

theorem prompt_gotResponse (m p : String) {resp body : String}
    (h : splitBody resp = some body) :
    Ollama.prompt m p (.gotResponse resp) = Ollama.promptFromBody body := by
  obtain ⟨i, hf, hb⟩ := splitBody_eq_some h
  simp [Ollama.prompt, hf, hb]

theorem available_models_gotResponse {resp body : String}
    (h : splitBody resp = some body) :
    Ollama.available_models (.gotResponse resp) = Ollama.modelsFromBody body := by
  obtain ⟨i, hf, hb⟩ := splitBody_eq_some h
  simp [Ollama.available_models, hf, hb]

theorem string_mk_data (s : String) : String.mk s.data = s := rfl

theorem parseStringBodyF_plain :
    ∀ (l : List Char) (f : Nat) (rest : List Char), (∀ c ∈ l, plainJsonChar c) →
      parseStringBodyF (l.length + (f + 1)) (l ++ '"' :: rest) = some (l, rest)
  | [], f, rest, _ => by
    rw [show ([] : List Char).length + (f + 1) = f + 1 by simp]
    rfl
  | c :: l, f, rest, h => by
    have hc : plainJsonChar c := h c (List.mem_cons_self c l)
    have hl : ∀ x ∈ l, plainJsonChar x := fun x hx => h x (List.mem_cons_of_mem c hx)
    rw [show (c :: l).length + (f + 1) = (l.length + (f + 1)) + 1 by
        simp [List.length_cons]; omega,
      List.cons_append]
    simp only [parseStringBodyF]
    rw [if_neg hc.1, if_neg hc.2.1, if_neg (Nat.not_lt.mpr hc.2.2),
      parseStringBodyF_plain l f rest hl]
    rfl

theorem parseStringBody_plain (l : List Char) (rest : List Char)
    (h : ∀ c ∈ l, plainJsonChar c) :
    parseStringBody (l ++ '"' :: rest) = some (l, rest) := by
  unfold parseStringBody
  rw [show (l ++ '"' :: rest).length + 1 = l.length + ((rest.length + 1) + 1) by
    simp [List.length_append]; omega]
  exact parseStringBodyF_plain l (rest.length + 1) rest h

theorem parseF_val_string (f : Nat) (s : String) (rest : List Char)
    (hs : ∀ c ∈ s.data, plainJsonChar c) :
    parseF (f + 1) PMode.val (' ' :: '"' :: (s.data ++ '"' :: rest))
      = some (Json.str s, rest) := by
  show (parseStringBody (s.data ++ '"' :: rest)).map
      (fun p => (Json.str (String.mk p.1), p.2)) = some (Json.str s, rest)
  rw [parseStringBody_plain s.data rest hs]
  rfl

theorem parseF_member_model (f : Nat) (first : Bool) (acc : List (String × Json))
    (m : String) (rest : List Char) (hm : ∀ c ∈ m.data, plainJsonChar c) :
    parseF (f + 2) (PMode.objMembers first acc) (memberModelHead ++ (m.data ++ '"' :: rest))
      = objMemberValueCont (parseF (f + 1)) acc ['m', 'o', 'd', 'e', 'l']
          (Json.str m, rest) := by
  show (parseF (f + 1) PMode.val (' ' :: '"' :: (m.data ++ '"' :: rest))).bind
      (objMemberValueCont (parseF (f + 1)) acc ['m', 'o', 'd', 'e', 'l'])
      = objMemberValueCont (parseF (f + 1)) acc ['m', 'o', 'd', 'e', 'l'] (Json.str m, rest)
  rw [parseF_val_string f m rest hm]
  rfl

theorem parseF_member_prompt (f : Nat) (first : Bool) (acc : List (String × Json))
    (p : String) (rest : List Char) (hp : ∀ c ∈ p.data, plainJsonChar c) :
    parseF (f + 2) (PMode.objMembers first acc) (memberPromptHead ++ (p.data ++ '"' :: rest))
      = objMemberValueCont (parseF (f + 1)) acc ['p', 'r', 'o', 'm', 'p', 't']
          (Json.str p, rest) := by
  show (parseF (f + 1) PMode.val (' ' :: '"' :: (p.data ++ '"' :: rest))).bind
      (objMemberValueCont (parseF (f + 1)) acc ['p', 'r', 'o', 'm', 'p', 't'])
      = objMemberValueCont (parseF (f + 1)) acc ['p', 'r', 'o', 'm', 'p', 't'] (Json.str p, rest)
  rw [parseF_val_string f p rest hp]
  rfl

theorem parseF_member_stream (f : Nat) (acc : List (String × Json)) :
    parseF (f + 2) (PMode.objMembers false acc) streamTail
      = some (Json.obj (acc ++ [("stream", Json.bool false)]), []) := rfl

theorem parseF_promptBody (f : Nat) (m p : String)
    (hm : ∀ c ∈ m.data, plainJsonChar c) (hp : ∀ c ∈ p.data, plainJsonChar c) :
    parseF (f + 5) PMode.val
        ('\x7b' :: (memberModelHead ++ (m.data ++ '"' ::
          (',' :: (memberPromptHead ++ (p.data ++ '"' :: (',' :: streamTail)))))))
      = some (Json.obj [("model", Json.str m), ("prompt", Json.str p),
          ("stream", Json.bool false)], []) := by
  show parseF (f + 4) (PMode.objMembers true [])
      (memberModelHead ++ (m.data ++ '"' ::
        (',' :: (memberPromptHead ++ (p.data ++ '"' :: (',' :: streamTail))))))
    = some (Json.obj [("model", Json.str m), ("prompt", Json.str p),
        ("stream", Json.bool false)], [])
  rw [show f + 4 = (f + 2) + 2 from rfl,
    parseF_member_model (f + 2) true [] m _ hm]
  show parseF (f + 3) (PMode.objMembers false [("model", Json.str m)])
      (memberPromptHead ++ (p.data ++ '"' :: (',' :: streamTail)))
    = some (Json.obj [("model", Json.str m), ("prompt", Json.str p),
        ("stream", Json.bool false)], [])
  rw [show f + 3 = (f + 1) + 2 from rfl,
    parseF_member_prompt (f + 1) false [("model", Json.str m)] p _ hp]
  show parseF (f + 2) (PMode.objMembers false
        [("model", Json.str m), ("prompt", Json.str p)]) streamTail
    = some (Json.obj [("model", Json.str m), ("prompt", Json.str p),
        ("stream", Json.bool false)], [])
  rw [parseF_member_stream f]
  rfl

theorem promptBody_data (m p : String) :
    (Ollama.promptBody m p).data
      = '\x7b' :: (memberModelHead ++ (m.data ++ '"' ::
          (',' :: (memberPromptHead ++ (p.data ++ '"' :: (',' :: streamTail)))))) := by
  show ("\x7b\n            \"model\": \"" ++ m ++ "\",\n            \"prompt\": \"" ++
      p ++ "\",\n            \"stream\": false\n        \x7d").data = _
  simp only [String.data_append, List.append_assoc]
  rfl

theorem promptBody_length (m p : String) :
    (Ollama.promptBody m p).data.length = 90 + m.data.length + p.data.length := by
  rw [promptBody_data]
  simp [memberModelHead, memberPromptHead, streamTail, sp12, List.length_append]
  omega

theorem json_parse_promptBody (m p : String)
    (hm : ∀ c ∈ m.data, plainJsonChar c) (hp : ∀ c ∈ p.data, plainJsonChar c) :
    Json.parse (Ollama.promptBody m p)
      = some (Json.obj [("model", Json.str m), ("prompt", Json.str p),
          ("stream", Json.bool false)]) := by
  unfold Json.parse
  rw [show 2 * (Ollama.promptBody m p).data.length + 2
      = (2 * (Ollama.promptBody m p).data.length - 3) + 5 by
        have := promptBody_length m p; omega]
  generalize 2 * (Ollama.promptBody m p).data.length - 3 = k
  rw [promptBody_data, parseF_promptBody k m p hm hp]
  rfl

theorem leadsWith_take :
    ∀ (pat s b : List Char), leadsWith pat (s ++ b) = true →
      leadsWith (pat.take s.length) s = true
  | _, [], _, _ => rfl
  | [], c :: s, b, _ => rfl
  | p :: ps, c :: s, b, h => by
    simp only [List.cons_append, leadsWith, Bool.and_eq_true, beq_iff_eq] at h
    simp only [List.length_cons, List.take_succ_cons, leadsWith,
      Bool.and_eq_true, beq_iff_eq]
    exact ⟨h.1, leadsWith_take ps s b h.2⟩

theorem blockedAt_no_occur (pat s b : List Char) (h : blockedAt pat s = true) :
    leadsWith pat (s ++ b) = false := by
  cases hlw : leadsWith pat (s ++ b) with
  | false => rfl
  | true =>
    exfalso
    have := leadsWith_take pat s b hlw
    unfold blockedAt at h
    rw [this] at h
    simp at h

theorem findSub_append_of_safePre :
    ∀ (pat a b : List Char), safePre pat a = true →
      findSub pat (a ++ b) = (findSub pat b).map (fun i => i + a.length)
  | pat, [], b, _ => by
    simp only [List.nil_append, List.length_nil]
    cases findSub pat b <;> rfl
  | pat, c :: a, b, h => by
    have hb : blockedAt pat (c :: a) = true := by
      unfold safePre at h
      exact (Bool.and_eq_true_iff.mp h).1
    have ht : safePre pat a = true := by
      unfold safePre at h
      exact (Bool.and_eq_true_iff.mp h).2
    rw [List.cons_append]
    show (if leadsWith pat (c :: (a ++ b)) then some 0
      else (findSub pat (a ++ b)).map (fun i => i + 1))
      = (findSub pat b).map (fun i => i + (c :: a).length)
    rw [show (c :: (a ++ b)) = (c :: a) ++ b from rfl,
      blockedAt_no_occur pat (c :: a) b hb]
    simp only [Bool.false_eq_true, if_false,
      findSub_append_of_safePre pat a b ht, Option.map_map]
    cases findSub pat b with
    | none => rfl
    | some i =>
      simp only [Option.map_some', Function.comp_apply, List.length_cons,
        Option.some.injEq]
      omega

theorem leadsWith_refl_append : ∀ (p b : List Char), leadsWith p (p ++ b) = true
  | [], _ => rfl
  | c :: p, b => by
    simp only [List.cons_append, leadsWith, beq_self_eq_true, Bool.true_and]
    exact leadsWith_refl_append p b

theorem findSub_self : ∀ (pat b : List Char), findSub pat (pat ++ b) = some 0
  | [], [] => rfl
  | [], c :: b => rfl
  | p :: ps, b => by
    show (if leadsWith (p :: ps) ((p :: ps) ++ b) then some 0
      else (findSub (p :: ps) (ps ++ b)).map (fun i => i + 1)) = some 0
    rw [leadsWith_refl_append]
    rfl

theorem findSub_cr_free_append (ps : List Char) :
    ∀ (a b : List Char), (∀ c ∈ a, c ≠ '\r') →
      findSub ('\r' :: ps) (a ++ b) = (findSub ('\r' :: ps) b).map (fun i => i + a.length)
  | [], b, _ => by
    simp only [List.nil_append, List.length_nil]
    cases findSub ('\r' :: ps) b <;> rfl
  | c :: a, b, h => by
    have hc : c ≠ '\r' := h c (List.mem_cons_self c a)
    have ha : ∀ x ∈ a, x ≠ '\r' := fun x hx => h x (List.mem_cons_of_mem c hx)
    rw [List.cons_append]
    show (if leadsWith ('\r' :: ps) (c :: (a ++ b)) then some 0
      else (findSub ('\r' :: ps) (a ++ b)).map (fun i => i + 1))
      = (findSub ('\r' :: ps) b).map (fun i => i + (c :: a).length)
    have hlw : leadsWith ('\r' :: ps) (c :: (a ++ b)) = false := by
      simp only [leadsWith]
      rw [beq_eq_false_iff_ne.mpr (Ne.symm hc)]
      rfl
    rw [hlw]
    simp only [Bool.false_eq_true, if_false,
      findSub_cr_free_append ps a b ha, Option.map_map]
    cases findSub ('\r' :: ps) b with
    | none => rfl
    | some i =>
      simp only [Option.map_some', Function.comp_apply, List.length_cons,
        Option.some.injEq]
      omega

theorem digitChar_ne_cr (n : Nat) : Nat.digitChar n ≠ '\r' := by
  unfold Nat.digitChar
  by_cases h0 : n = 0
  · rw [if_pos h0]; decide
  rw [if_neg h0]
  by_cases h1 : n = 1
  · rw [if_pos h1]; decide
  rw [if_neg h1]
  by_cases h2 : n = 2
  · rw [if_pos h2]; decide
  rw [if_neg h2]
  by_cases h3 : n = 3
  · rw [if_pos h3]; decide
  rw [if_neg h3]
  by_cases h4 : n = 4
  · rw [if_pos h4]; decide
  rw [if_neg h4]
  by_cases h5 : n = 5
  · rw [if_pos h5]; decide
  rw [if_neg h5]
  by_cases h6 : n = 6
  · rw [if_pos h6]; decide
  rw [if_neg h6]
  by_cases h7 : n = 7
  · rw [if_pos h7]; decide
  rw [if_neg h7]
  by_cases h8 : n = 8
  · rw [if_pos h8]; decide
  rw [if_neg h8]
  by_cases h9 : n = 9
  · rw [if_pos h9]; decide
  rw [if_neg h9]
  by_cases h10 : n = 10
  · rw [if_pos h10]; decide
  rw [if_neg h10]
  by_cases h11 : n = 11
  · rw [if_pos h11]; decide
  rw [if_neg h11]
  by_cases h12 : n = 12
  · rw [if_pos h12]; decide
  rw [if_neg h12]
  by_cases h13 : n = 13
  · rw [if_pos h13]; decide
  rw [if_neg h13]
  by_cases h14 : n = 14
  · rw [if_pos h14]; decide
  rw [if_neg h14]
  by_cases h15 : n = 15
  · rw [if_pos h15]; decide
  rw [if_neg h15]
  decide

theorem toDigitsCore_ne_cr :
    ∀ (fuel n : Nat) (ds : List Char), (∀ c ∈ ds, c ≠ '\r') →
      ∀ c ∈ Nat.toDigitsCore 10 fuel n ds, c ≠ '\r'
  | 0, n, ds, h => by
    unfold Nat.toDigitsCore
    exact h
  | fuel + 1, n, ds, h => by
    unfold Nat.toDigitsCore
    show ∀ c ∈ (if n / 10 = 0 then (n % 10).digitChar :: ds
        else Nat.toDigitsCore 10 fuel (n / 10) ((n % 10).digitChar :: ds)), c ≠ '\r'
    split
    · intro c hc
      rcases List.mem_cons.mp hc with h1 | h2
      · rw [h1]; exact digitChar_ne_cr _
      · exact h c h2
    · exact toDigitsCore_ne_cr fuel (n / 10) (Nat.digitChar (n % 10) :: ds)
        (by
          intro c hc
          rcases List.mem_cons.mp hc with h1 | h2
          · rw [h1]; exact digitChar_ne_cr _
          · exact h c h2)

theorem toString_nat_ne_cr (n : Nat) : ∀ c ∈ (toString n).data, c ≠ '\r' := by
  show ∀ c ∈ Nat.toDigitsCore 10 (n + 1) n [], c ≠ '\r'
  exact toDigitsCore_ne_cr (n + 1) n [] (by intro c hc; simp at hc)

theorem takeWhile_ne_cr_append (a b : List Char) (h : ∀ c ∈ a, c ≠ '\r') :
    (a ++ '\r' :: b).takeWhile (fun c => c != '\r') = a := by
  induction a with
  | nil => simp [List.takeWhile]
  | cons c a ih =>
    have hc : c ≠ '\r' := h c (List.mem_cons_self c a)
    have ha : ∀ x ∈ a, x ≠ '\r' := fun x hx => h x (List.mem_cons_of_mem c hx)
    rw [List.cons_append]
    simp only [List.takeWhile_cons, bne_iff_ne, ne_eq, hc, not_false_eq_true, if_true]
    rw [ih ha]

theorem promptRequest_data (m p : String) :
    (Ollama.promptRequest m p).data
      = preChars ++ (clPat ++ ((toString (Ollama.promptBody m p).utf8ByteSize).data
          ++ (postPreChars ++ (crlfcrlf ++ (Ollama.promptBody m p).data)))) := by
  show ("POST /api/generate HTTP/1.1\r\nHost: localhost\r\nContent-Type: application/json\r\nContent-Length: " ++
      toString (Ollama.promptBody m p).utf8ByteSize ++
      "\r\nConnection: close\r\n\r\n" ++ Ollama.promptBody m p).data = _
  simp only [String.data_append, List.append_assoc]
  rfl

theorem findSub_clPat_promptRequest (m p : String) :
    findSub clPat (Ollama.promptRequest m p).data = some 76 := by
  rw [promptRequest_data,
    findSub_append_of_safePre clPat preChars _ (by decide),
    findSub_self]
  rfl

theorem contentLengthHeader_promptRequest (m p : String) :
    contentLengthHeader (Ollama.promptRequest m p)
      = some (toString (Ollama.promptBody m p).utf8ByteSize) := by
  unfold contentLengthHeader
  rw [findSub_clPat_promptRequest m p]
  simp only [Option.map_some', Option.some.injEq]
  rw [promptRequest_data]
  rw [show (76 : Nat) + 18 = 94 from rfl]
  rw [show preChars ++ (clPat ++ ((toString (Ollama.promptBody m p).utf8ByteSize).data
      ++ (postPreChars ++ (crlfcrlf ++ (Ollama.promptBody m p).data))))
      = (preChars ++ clPat) ++ ((toString (Ollama.promptBody m p).utf8ByteSize).data
          ++ (postPreChars ++ (crlfcrlf ++ (Ollama.promptBody m p).data))) by
    simp [List.append_assoc]]
  rw [List.drop_left' (by decide : (preChars ++ clPat).length = 94)]
  rw [show postPreChars ++ (crlfcrlf ++ (Ollama.promptBody m p).data)
      = '\r' :: ("\nConnection: close".data ++ (crlfcrlf ++ (Ollama.promptBody m p).data)) from rfl]
  rw [takeWhile_ne_cr_append _ _ (toString_nat_ne_cr _)]

theorem findSub_crlfcrlf_cr_free (a b : List Char) (h : ∀ c ∈ a, c ≠ '\r') :
    findSub crlfcrlf (a ++ b) = (findSub crlfcrlf b).map (fun i => i + a.length) :=
  findSub_cr_free_append ['\n', '\r', '\n'] a b h

theorem findSub_crlfcrlf_promptRequest (m p : String) :
    findSub crlfcrlf (Ollama.promptRequest m p).data
      = some (113 + (toString (Ollama.promptBody m p).utf8ByteSize).data.length) := by
  rw [promptRequest_data,
    findSub_append_of_safePre crlfcrlf preChars _ (by decide),
    findSub_append_of_safePre crlfcrlf clPat _ (by decide),
    findSub_crlfcrlf_cr_free _ _ (toString_nat_ne_cr _),
    findSub_append_of_safePre crlfcrlf postPreChars _ (by decide),
    findSub_self]
  simp only [Option.map_some', Option.some.injEq]
  rw [show preChars.length = 76 from rfl, show clPat.length = 18 from rfl,
    show postPreChars.length = 19 from rfl]
  omega

theorem splitBody_promptRequest (m p : String) :
    splitBody (Ollama.promptRequest m p) = some (Ollama.promptBody m p) := by
  unfold splitBody
  rw [findSub_crlfcrlf_promptRequest m p]
  simp only [Option.map_some', Option.some.injEq]
  rw [promptRequest_data]
  rw [show preChars ++ (clPat ++ ((toString (Ollama.promptBody m p).utf8ByteSize).data
      ++ (postPreChars ++ (crlfcrlf ++ (Ollama.promptBody m p).data))))
      = (preChars ++ clPat ++ (toString (Ollama.promptBody m p).utf8ByteSize).data
          ++ postPreChars ++ crlfcrlf) ++ (Ollama.promptBody m p).data by
    simp [List.append_assoc]]
  rw [List.drop_left' (by
    simp only [List.length_append]
    rw [show preChars.length = 76 from rfl, show clPat.length = 18 from rfl,
      show postPreChars.length = 19 from rfl, show crlfcrlf.length = 4 from rfl]
    omega)]

/-! ## Claims -/

/-- Claim C1: for every response with a header/body boundary, `prompt` parses
the body line by line first, concatenating every `response` field, and only
an empty concatenation makes it fall back to parsing the whole body as one
JSON object; the line-delimited body with fragments `Hel` and `lo` yields
`Ok("Hello")`, and a single-object body yields `Ok("Hi")`. -/
theorem prompt_per_line_then_fallback :
    (∀ body : String, Ollama.promptLineText body ≠ "" →
      Ollama.promptFromBody body = .ok (Ollama.promptLineText body))
    ∧ (∀ body s, Ollama.promptFromBody body = .ok s →
        s = Ollama.promptLineText body ∨
          (Ollama.promptLineText body = "" ∧ Ollama.promptWholeText body = some s))
    ∧ Ollama.prompt "m" "p" (.gotResponse
        "HTTP/1.1 200 OK\r\nContent-Type: application/x-ndjson\r\n\r\n\x7b\"response\":\"Hel\"\x7d\n\x7b\"response\":\"lo\"\x7d")
        = .ok "Hello"
    ∧ Ollama.prompt "m" "p" (.gotResponse "HTTP/1.1 200 OK\r\n\r\n\x7b\"response\":\"Hi\"\x7d")
        = .ok "Hi" := by
  refine ⟨?_, ?_, rfl, rfl⟩
  · intro body h
    simp [Ollama.promptFromBody, Ollama.promptFullText, h]
  · intro body s h
    by_cases hl : Ollama.promptLineText body = ""
    · right
      refine ⟨hl, ?_⟩
      simp only [Ollama.promptFromBody, Ollama.promptFullText, hl, if_pos rfl] at h
      cases hw : Ollama.promptWholeText body with
      | none => rw [hw] at h; simp at h
      | some t =>
        rw [hw] at h
        by_cases ht : t = ""
        · rw [ht] at h; simp at h
        · simp [ht] at h
          rw [h]
    · left
      simp only [Ollama.promptFromBody, Ollama.promptFullText, if_neg hl,
        Except.ok.injEq] at h
      exact h.symm

/-- Witness for C1 at a concrete line-delimited body. -/
theorem prompt_per_line_then_fallback_witness :
    Ollama.promptFromBody "\x7b\"response\":\"Ha\"\x7d" = .ok "Ha" :=
  prompt_per_line_then_fallback.1 "\x7b\"response\":\"Ha\"\x7d" (by decide)

/-- Claim C2: `prompt` succeeds only with a non-empty string, and when
neither the per-line pass nor the whole-body parse yields any `response`
text it fails with the error carrying the raw body. -/
theorem prompt_nonempty_or_empty_response_error :
    (∀ (model p : String) (net : NetOutcome) (s : String),
      Ollama.prompt model p net = .ok s → s ≠ "")
    ∧ (∀ (model p resp body : String), splitBody resp = some body →
        Ollama.promptLineText body = "" →
        (Ollama.promptWholeText body = none ∨ Ollama.promptWholeText body = some "") →
        Ollama.prompt model p (.gotResponse resp) = .error (.noResponseField body)) := by
  constructor
  · intro model p net s h
    cases net with
    | connectFail => simp [Ollama.prompt] at h
    | writeFail => simp [Ollama.prompt] at h
    | readFail => simp [Ollama.prompt] at h
    | gotResponse resp =>
      simp only [Ollama.prompt] at h
      cases hf : findSub crlfcrlf resp.data with
      | none => rw [hf] at h; simp at h
      | some i =>
        rw [hf] at h
        simp only [Ollama.promptFromBody] at h
        by_cases he : Ollama.promptFullText (String.mk (resp.data.drop (i + 4))) = ""
        · rw [if_pos he] at h; simp at h
        · rw [if_neg he] at h
          simp only [Except.ok.injEq] at h
          rw [← h]
          exact he
  · intro model p resp body hsplit hline hwhole
    rw [prompt_gotResponse model p hsplit]
    have hfull : Ollama.promptFullText body = "" := by
      simp only [Ollama.promptFullText, hline, if_pos rfl]
      cases hwhole with
      | inl h => rw [h]; rfl
      | inr h => rw [h]; rfl
    simp [Ollama.promptFromBody, hfull]

/-- Witness for C2 at an object body with no `response` field. -/
theorem prompt_nonempty_or_empty_response_error_witness :
    Ollama.prompt "m" "p" (.gotResponse "HTTP/1.1 200 OK\r\n\r\n\x7b\x7d")
      = .error (.noResponseField "\x7b\x7d") :=
  prompt_nonempty_or_empty_response_error.2 "m" "p"
    "HTTP/1.1 200 OK\r\n\r\n\x7b\x7d" "\x7b\x7d" (by decide) (by decide) (by decide)

/-- Claim C3: when the body parses as JSON with a `models` array,
`available_models` returns the string `name` fields of the array elements,
in array order, skipping elements without one; on the example tags body it
returns exactly the names `a`, `b`. -/
theorem available_models_names_in_order :
    (∀ (resp body : String) (parsed : Json) (arr : List Json),
      splitBody resp = some body → Json.parse body = some parsed →
      jArr (jindex parsed "models") = some arr →
      Ollama.available_models (.gotResponse resp)
        = .ok (arr.filterMap (fun m => (jget m "name").bind jStr)))
    ∧ Ollama.available_models (.gotResponse
        "HTTP/1.1 200 OK\r\n\r\n\x7b\"models\":[\x7b\"name\":\"a\"\x7d,\x7b\"notname\":\"x\"\x7d,\x7b\"name\":\"b\"\x7d]\x7d")
        = .ok ["a", "b"] := by
  refine ⟨?_, rfl⟩
  intro resp body parsed arr hsplit hparse harr
  rw [available_models_gotResponse hsplit]
  simp [Ollama.modelsFromBody, hparse, harr]

/-- Witness for C3 at the example tags response. -/
theorem available_models_names_in_order_witness :
    Ollama.available_models (.gotResponse
        "HTTP/1.1 200 OK\r\n\r\n\x7b\"models\":[\x7b\"name\":\"a\"\x7d,\x7b\"notname\":\"x\"\x7d,\x7b\"name\":\"b\"\x7d]\x7d")
      = .ok ([Json.obj [("name", Json.str "a")], Json.obj [("notname", Json.str "x")],
          Json.obj [("name", Json.str "b")]].filterMap (fun m => (jget m "name").bind jStr)) :=
  available_models_names_in_order.1
    "HTTP/1.1 200 OK\r\n\r\n\x7b\"models\":[\x7b\"name\":\"a\"\x7d,\x7b\"notname\":\"x\"\x7d,\x7b\"name\":\"b\"\x7d]\x7d"
    "\x7b\"models\":[\x7b\"name\":\"a\"\x7d,\x7b\"notname\":\"x\"\x7d,\x7b\"name\":\"b\"\x7d]\x7d"
    (Json.obj [("models", Json.arr [Json.obj [("name", Json.str "a")],
      Json.obj [("notname", Json.str "x")], Json.obj [("name", Json.str "b")]])])
    [Json.obj [("name", Json.str "a")], Json.obj [("notname", Json.str "x")],
      Json.obj [("name", Json.str "b")]]
    (by rfl) (by rfl) (by rfl)

/-- Claim C4: `available_models` fails with a `ProtocolError`-class error in
exactly three cases: no header/body boundary, a body that does not parse as
JSON, or parsed JSON without a `models` array (including a missing `models`
key, as in the second conjunct's example). -/
theorem available_models_protocol_error_iff :
    (∀ resp : String,
      isProtocolError (Ollama.available_models (.gotResponse resp)) = true ↔
        (splitBody resp = none
          ∨ (∃ body, splitBody resp = some body ∧ Json.parse body = none)
          ∨ (∃ body parsed, splitBody resp = some body ∧ Json.parse body = some parsed
              ∧ jArr (jindex parsed "models") = none)))
    ∧ Ollama.available_models (.gotResponse "HTTP/1.1 200 OK\r\n\r\n\x7b\"foo\":[]\x7d")
        = .error .invalidModels := by
  refine ⟨?_, rfl⟩
  intro resp
  cases hf : findSub crlfcrlf resp.data with
  | none =>
    simp [Ollama.available_models, splitBody, hf, isProtocolError]
  | some i =>
    have hsplit : splitBody resp = some (String.mk (resp.data.drop (i + 4))) := by
      simp [splitBody, hf]
    simp only [Ollama.available_models, hf, hsplit]
    cases hp : Json.parse (String.mk (resp.data.drop (i + 4))) with
    | none =>
      simp [Ollama.modelsFromBody, hp, isProtocolError]
    | some parsed =>
      cases ha : jArr (jindex parsed "models") with
      | none =>
        simp only [Ollama.modelsFromBody, hp, ha, isProtocolError]
        simp only [true_iff]
        exact Or.inr (Or.inr ⟨String.mk (resp.data.drop (i + 4)), parsed, rfl, hp, ha⟩)
      | some arr =>
        simp only [Ollama.modelsFromBody, hp, ha, isProtocolError]
        constructor
        · intro h; exact absurd h (by simp)
        · rintro (h | ⟨body, hb, hbp⟩ | ⟨body, parsed2, hb, hbp, hba⟩)
          · simp at h
          · simp only [Option.some.injEq] at hb
            rw [← hb] at hbp
            rw [hp] at hbp
            simp at hbp
          · simp only [Option.some.injEq] at hb
            rw [← hb] at hbp
            rw [hp] at hbp
            simp only [Option.some.injEq] at hbp
            rw [← hbp] at hba
            rw [ha] at hba
            simp at hba

/-- Claim C5: `version` is total over outcomes (it is a Lean function into
`String`, so it can never raise); on connection failure it returns the
non-empty sentinel `"not connected"`; and whenever the structured parse does
not yield a `version` string, it returns the first response line containing
the substring `"version"` verbatim, or the `"invalid response"` sentinel when
no such line exists. -/
theorem version_sentinels_and_fallback :
    (Ollama.version .connectFail = "not connected" ∧ "not connected" ≠ "")
    ∧ (∀ resp : String, Ollama.structuredVersion resp = none →
        Ollama.version (.gotResponse resp)
          = (((rustLines resp).find? (fun l => containsSub "version" l)).getD
              "invalid response"))
    ∧ (∀ resp : String, Ollama.structuredVersion resp = none →
        (rustLines resp).find? (fun l => containsSub "version" l) = none →
        Ollama.version (.gotResponse resp) = "invalid response") := by
  refine ⟨⟨rfl, by decide⟩, ?_, ?_⟩
  · intro resp h
    simp [Ollama.version, Ollama.versionFromResponse, h]
  · intro resp h hnone
    simp [Ollama.version, Ollama.versionFromResponse, h, hnone]

/-- Witness for C5 at a response with no boundary and no line containing
`"version"`. -/
theorem version_sentinels_and_fallback_witness :
    Ollama.version (.gotResponse "weird") = "invalid response" :=
  version_sentinels_and_fallback.2.2 "weird" (by decide) (by decide)

/-- Claim C6: when the trimmed body after the first `CRLFCRLF` boundary is
the JSON object with a `version` field `"9.9.9"`, `version` returns exactly
`"9.9.9"`. -/
theorem version_extracts_version_field :
    ∀ resp body : String, splitBody resp = some body →
      rustTrim body = "\x7b\"version\":\"9.9.9\"\x7d" →
      Ollama.version (.gotResponse resp) = "9.9.9" := by
  intro resp body hsplit htrim
  obtain ⟨i, hf, hb⟩ := splitBody_eq_some hsplit
  have hstruct : Ollama.structuredVersion resp = some "9.9.9" := by
    simp only [Ollama.structuredVersion, hf, ← hb, htrim]
    rfl
  simp [Ollama.version, Ollama.versionFromResponse, hstruct]

/-- Witness for C6 at a concrete version response. -/
theorem version_extracts_version_field_witness :
    Ollama.version (.gotResponse
        "HTTP/1.1 200 OK\r\nContent-Type: application/json\r\n\r\n\x7b\"version\":\"9.9.9\"\x7d")
      = "9.9.9" :=
  version_extracts_version_field
    "HTTP/1.1 200 OK\r\nContent-Type: application/json\r\n\r\n\x7b\"version\":\"9.9.9\"\x7d"
    "\x7b\"version\":\"9.9.9\"\x7d" (by rfl) (by rfl)

/-- Counterexample to claim C7: calling `prompt` with an empty model (no
bound model exists in the code — the struct stores only a version string)
does not fail with `NoModelSelected`; on a normal generate response it
succeeds. -/
theorem prompt_no_model_validation_cex :
    Ollama.prompt "" "hi" (.gotResponse "HTTP/1.1 200 OK\r\n\r\n\x7b\"response\":\"Hi\"\x7d")
        = .ok "Hi"
    ∧ Ollama.prompt "" "hi" (.gotResponse "HTTP/1.1 200 OK\r\n\r\n\x7b\"response\":\"Hi\"\x7d")
        ≠ .error .noModelSelected := by
  refine ⟨rfl, ?_⟩
  rw [show Ollama.prompt "" "hi"
      (.gotResponse "HTTP/1.1 200 OK\r\n\r\n\x7b\"response\":\"Hi\"\x7d")
      = Except.ok "Hi" from rfl]
  simp

/-- Claim C7 as amended: `prompt` performs no model validation at all — no
call ever fails with `NoModelSelected`; with an empty model the connection is
still attempted first (a connect failure is what surfaces), and the request
body is built with the empty model embedded. -/
theorem prompt_never_no_model_selected :
    (∀ (model p : String) (net : NetOutcome),
      Ollama.prompt model p net ≠ .error .noModelSelected)
    ∧ (∀ p : String, Ollama.prompt "" p .connectFail = .error .connectError)
    ∧ Ollama.promptBody "" "x"
        = "\x7b\n            \"model\": \"\",\n            \"prompt\": \"x\",\n            \"stream\": false\n        \x7d" := by
  refine ⟨?_, fun _ => rfl, rfl⟩
  intro model p net
  cases net with
  | connectFail => simp [Ollama.prompt]
  | writeFail => simp [Ollama.prompt]
  | readFail => simp [Ollama.prompt]
  | gotResponse resp =>
    simp only [Ollama.prompt]
    cases hf : findSub crlfcrlf resp.data with
    | none => simp
    | some i =>
      simp only [Ollama.promptFromBody]
      split
      · simp
      · simp

/-- Claim C9: the substring-scan fallback of `version` runs over the lines of
the entire raw response, headers included; when the structured parse yields
nothing and the first line containing `"version"` is a header line, that
header line is returned verbatim. -/
theorem version_fallback_scans_headers :
    Ollama.version (.gotResponse
        "HTTP/1.1 200 OK\r\nx-server-version: 0.1.2\r\nContent-Type: text/plain\r\n\r\nnot json")
      = "x-server-version: 0.1.2"
    ∧ (∀ (resp l : String), Ollama.structuredVersion resp = none →
        (rustLines resp).find? (fun ln => containsSub "version" ln) = some l →
        Ollama.version (.gotResponse resp) = l) := by
  refine ⟨rfl, ?_⟩
  intro resp l h hfind
  simp [Ollama.version, Ollama.versionFromResponse, h, hfind]

/-- Witness for C9 at the concrete header-scanning response. -/
theorem version_fallback_scans_headers_witness :
    Ollama.version (.gotResponse
        "HTTP/1.1 200 OK\r\nx-api-version: 7\r\n\r\n\x7b\"noversionfield\":1\x7d")
      = "x-api-version: 7" :=
  version_fallback_scans_headers.2
    "HTTP/1.1 200 OK\r\nx-api-version: 7\r\n\r\n\x7b\"noversionfield\":1\x7d"
    "x-api-version: 7" (by rfl) (by rfl)

/-- Claim C10: `available_models` silently skips array elements whose `name`
is not a string and elements that are not objects at all — wherever such an
element sits in the `models` array, the call still succeeds and returns
exactly the names of the remaining elements in their order; the two concrete
evaluations exercise every skipped shape, including a `models` array with no
usable element yielding an empty success. -/
theorem available_models_skips_non_string_names :
    (∀ (resp body : String) (parsed : Json) (xs ys : List Json) (v : Json),
      splitBody resp = some body → Json.parse body = some parsed →
      jArr (jindex parsed "models") = some (xs ++ v :: ys) →
      ((∀ kvs, v ≠ Json.obj kvs) ∨ jget v "name" = none ∨
        (∃ j, jget v "name" = some j ∧ jStr j = none)) →
      Ollama.available_models (.gotResponse resp)
        = .ok ((xs ++ ys).filterMap (fun m => (jget m "name").bind jStr)))
    ∧ Ollama.available_models (.gotResponse
        "HTTP/1.1 200 OK\r\n\r\n\x7b\"models\":[\x7b\"name\":\"a\"\x7d,\x7b\"name\":5\x7d,\"junk\",\x7b\"name\":\"b\"\x7d,null,[1],\x7b\"name\":true\x7d]\x7d")
        = .ok ["a", "b"]
    ∧ Ollama.available_models (.gotResponse
        "HTTP/1.1 200 OK\r\n\r\n\x7b\"models\":[5,\"x\",\x7b\x7d,\x7b\"name\":3\x7d]\x7d")
        = .ok [] := by
  refine ⟨?_, rfl, rfl⟩
  intro resp body parsed xs ys v hsplit hparse harr hbad
  have hv : (jget v "name").bind jStr = none := by
    rcases hbad with h | h | ⟨j, hj, hjs⟩
    · cases v with
      | obj kvs => exact absurd rfl (h kvs)
      | null => rfl
      | bool b => rfl
      | num s => rfl
      | str s => rfl
      | arr l => rfl
    · rw [h]; rfl
    · rw [hj, Option.some_bind, hjs]
  rw [available_models_gotResponse hsplit]
  simp only [Ollama.modelsFromBody, hparse, harr]
  rw [List.filterMap_append, List.filterMap_cons, hv, List.filterMap_append]

/-- Witness for C10 at a concrete tags response whose middle element has a
numeric `name`. -/
theorem available_models_skips_non_string_names_witness :
    Ollama.available_models (.gotResponse
        "HTTP/1.1 200 OK\r\n\r\n\x7b\"models\":[\x7b\"name\":\"a\"\x7d,\x7b\"name\":5\x7d,\x7b\"name\":\"b\"\x7d]\x7d")
      = .ok (([Json.obj [("name", Json.str "a")]] ++ [Json.obj [("name", Json.str "b")]]).filterMap
          (fun m => (jget m "name").bind jStr)) :=
  available_models_skips_non_string_names.1
    "HTTP/1.1 200 OK\r\n\r\n\x7b\"models\":[\x7b\"name\":\"a\"\x7d,\x7b\"name\":5\x7d,\x7b\"name\":\"b\"\x7d]\x7d"
    "\x7b\"models\":[\x7b\"name\":\"a\"\x7d,\x7b\"name\":5\x7d,\x7b\"name\":\"b\"\x7d]\x7d"
    (Json.obj [("models", Json.arr [Json.obj [("name", Json.str "a")],
      Json.obj [("name", Json.num "5")], Json.obj [("name", Json.str "b")]])])
    [Json.obj [("name", Json.str "a")]] [Json.obj [("name", Json.str "b")]]
    (Json.obj [("name", Json.num "5")])
    (by rfl) (by rfl) (by rfl)
    (Or.inr (Or.inr ⟨Json.num "5", rfl, rfl⟩))

/-- Counterexample to claim C8: the `format!` template interpolates the
prompt without any JSON escaping, so for a prompt containing a double quote
the request body is not the claimed JSON object — it is not JSON at all. -/
theorem prompt_body_unescaped_cex :
    Json.parse (Ollama.promptBody "m" "a\"b") = none := rfl

/-- Claim C8 as amended: for model and prompt strings with no character that
needs JSON escaping (no quote, no backslash, no control character), the POST
body parses as exactly the JSON object with the `model`, `prompt` and
`stream: false` members; and for every model and prompt, the
`Content-Length` header of the request is the decimal representation of the
UTF-8 byte length (`body.len()`) of the body that follows the `CRLFCRLF`
header terminator.  Strings needing escaping are interpolated raw, making
the body invalid or different JSON. -/
theorem prompt_request_body_and_length :
    ∀ model p : String,
      ((∀ c ∈ model.data, plainJsonChar c) → (∀ c ∈ p.data, plainJsonChar c) →
        Json.parse (Ollama.promptBody model p)
          = some (Json.obj [("model", Json.str model), ("prompt", Json.str p),
              ("stream", Json.bool false)]))
      ∧ contentLengthHeader (Ollama.promptRequest model p)
          = some (toString (Ollama.promptBody model p).utf8ByteSize)
      ∧ splitBody (Ollama.promptRequest model p) = some (Ollama.promptBody model p) :=
  fun model p =>
    ⟨fun hm hp => json_parse_promptBody model p hm hp,
      contentLengthHeader_promptRequest model p,
      splitBody_promptRequest model p⟩

/-- Witness for C8 at a concrete model and prompt. -/
theorem prompt_request_body_and_length_witness :
    Json.parse (Ollama.promptBody "llama3" "Hi")
        = some (Json.obj [("model", Json.str "llama3"), ("prompt", Json.str "Hi"),
            ("stream", Json.bool false)])
    ∧ contentLengthHeader (Ollama.promptRequest "llama3" "Hi")
        = some (toString (Ollama.promptBody "llama3" "Hi").utf8ByteSize)
    ∧ splitBody (Ollama.promptRequest "llama3" "Hi")
        = some (Ollama.promptBody "llama3" "Hi") :=
  ⟨(prompt_request_body_and_length "llama3" "Hi").1 (by decide) (by decide),
    (prompt_request_body_and_length "llama3" "Hi").2.1,
    (prompt_request_body_and_length "llama3" "Hi").2.2⟩

end OllamaRs
